import Mathlib

/-!
Verification of the layered-dispatch core of `contextpy` (src/contextpy.py),
a context-oriented-programming library: layers, scoped activation, per-method
advice registries, cached advice chains, and the `proceed` mechanism.

The embedding follows the source file closely:
* Layers are identity tokens, modelled as natural numbers (`LayerId`);
  the sentinel `None` entry of `_baseLayers` is modelled by `Option.none`,
  so an active-layer combination is a `List (Option LayerId)`.
* Thread-local state (`_MyTLS`) is an explicit record `DState` holding the
  `context` slot and the `activelayers` tuple, plus a heap of dispatch
  context triples (Python passes one mutable 3-element list per dispatch
  by reference; the heap with a `Nat` reference models that aliasing).
* Advice implementations (user functions) are deep-embedded as `Body`,
  a small language sufficient to observe argument passing, `proceed`,
  wrapping order and exceptions.
* Chain execution is a fuel-indexed interpreter `exec`, defined by
  structural recursion on the fuel so that concrete runs reduce by `rfl`.
-/

namespace ContextPy

/-- A layer is an identity token (`Layer` objects compare by identity). -/
abbrev LayerId := Nat

/-- An entry of an active-layer combination: `none` is the sentinel `None`
entry of `_baseLayers` (the layer-independent base), `some l` a layer. -/
abbrev LayerRef := Option LayerId

/-- An active-layer combination, i.e. the tuple `_baseLayers + _tls.activelayers`
used as the chain-cache key (src/contextpy.py:216). -/
abbrev Combination := List LayerRef

/-- Python values returned and passed around by advice bodies.  Sequences are
encoded as right-nested pairs terminated by `none_`. -/
inductive Val where
  | none_ : Val
  | int : Int → Val
  | str : String → Val
  | pair : Val → Val → Val
deriving DecidableEq

/-- Positional arguments of a call. -/
abbrev Args := List Val

/-- Keyword arguments of a call (name/value pairs, in order). -/
abbrev Kwargs := List (String × Val)

/-- The Python exceptions the modelled code can raise. -/
inductive PyErr where
  | exception : String → PyErr
  | typeError : String → PyErr
  | runtimeError : String → PyErr
  | attributeError : String → PyErr
  | valueError : String → PyErr
  | outOfFuel : PyErr
deriving DecidableEq

/-- Guard predicates over the active-layer combination.  `_true` is the
default guard (src/contextpy.py:203-204); the other constructors are
representative user guards (arbitrary callables in Python). -/
inductive Guard where
  | true_ : Guard
  | containsBase : Guard
  | containsLayer : LayerId → Guard
deriving DecidableEq

/-- Evaluate a guard on the full active-layer combination (guards are called
as `lmwgm[3](activelayers)`, src/contextpy.py:261). -/
def evalGuard : Guard → Combination → Bool
  | .true_, _ => true
  | .containsBase, c => c.contains none
  | .containsLayer l, c => c.contains (some l)

/-- The advice kind: the `when` slot of a registered method, one of the
`_Advice` subclasses `_Before`, `_Around`, `_After` (src/contextpy.py:168-188). -/
inductive AdviceKind where
  | before : AdviceKind
  | around : AdviceKind
  | after : AdviceKind
deriving DecidableEq

/-- Deep embedding of advice implementations (user Python functions):
enough to return values, observe the received arguments, call `proceed`
with or without arguments, raise, and wrap the downstream result. -/
inductive Body where
  | ret : Val → Body
  | retArgs : Body
  | proceedNone : Body
  | proceedWith : List Val → List (String × Val) → Body
  | raiseE : String → Body
  | wrap : Int → Body
deriving DecidableEq

/-- A built advice chain: each link holds the advice implementation and the
next link, mirroring `_Advice(func, nextFct)`; `stop` is `_Stop(None, None)`
(src/contextpy.py:139-195). -/
inductive Chain where
  | stop : Chain
  | before : Body → Chain → Chain
  | around : Body → Chain → Chain
  | after : Body → Chain → Chain
deriving DecidableEq

/-- Message of the exception raised by `_Stop.__call__`
(src/contextpy.py:192-195; apostrophes and backquotes of the original
message text are omitted). -/
def stopMessage : String :=
  "called proceed() in innermost function, this probably means that you do not have a base method (around advice in None layer) or the base method itself calls proceed()"

/-- Message of the TypeError raised by subscripting `None` in `proceed`
when `_tls.context is None` (src/contextpy.py:199-200). -/
def noContextMessage : String := "NoneType object is not subscriptable"

/-- Message of the TypeError raised by calling `context[2]` while it is
still `None`. -/
def noNextMessage : String := "NoneType object is not callable"

/-- A dispatch context: the mutable list `[inst, cls, None]` created per call
(src/contextpy.py:219).  Slot 2 (`nxt`) is the next-link pointer installed by
`_Around.__call__`. -/
structure Ctx where
  inst : Val
  cls : Val
  nxt : Option Chain
deriving DecidableEq

/-- The execution-context-local state (`_MyTLS`, src/contextpy.py:43-52):
the current dispatch-context reference and the active-layers tuple, plus the
heap of allocated dispatch contexts (modelling Python list aliasing). -/
structure DState where
  tlsContext : Option Nat
  activelayers : List LayerId
  heap : List Ctx
deriving DecidableEq

/-- Write slot 2 of the context list at reference `r` (`context[2] = ...`). -/
def setNxt (heap : List Ctx) (r : Nat) (n : Option Chain) : List Ctx :=
  match heap.get? r with
  | some c => heap.set r { c with nxt := n }
  | none => heap

/-- Encode the received `(args, kwargs)` pair as a value (used by the
`retArgs` body to make the arguments a link receives observable). -/
def encodeArgs (args : Args) (kwargs : Kwargs) : Val :=
  .pair (args.foldr .pair .none_)
    (kwargs.foldr (fun kv acc => .pair (.pair (.str kv.1) kv.2) acc) .none_)

/-- Work items of the interpreter: run a chain link, run an advice body, or
perform a `proceed` call. -/
inductive Task where
  | chain : Chain → Nat → Args → Kwargs → Task
  | body : Body → Args → Kwargs → Task
  | proceedT : Args → Kwargs → Task

/-- Fuel-indexed interpreter for chains, bodies and `proceed`, transcribing
`_Before.__call__`, `_Around.__call__`, `_After.__call__`, `_Stop.__call__`
and `proceed` (src/contextpy.py:168-200).  Notably `_Around` saves
`_tls.context`, installs the context and its next pointer, invokes the body,
and restores the backup only on the normal-return path (the source has no
try/finally); and `proceed` invokes `context[2]` with exactly the arguments
it itself received (`proceed()` with no arguments passes empty `args` and
`kwargs`).  Binding of `inst`/`cls` by `_Advice._invoke` is the host
runtime's method binding; bodies in this model take no receiver. -/
def exec : Nat → Task → DState → (Except PyErr Val) × DState
  | 0, _, st => (.error .outOfFuel, st)
  | Nat.succ fuel, t, st =>
    match t with
    | .chain c ref args kwargs =>
      match c with
      | .stop => (.error (.exception stopMessage), st)
      | .before f next =>
        match exec fuel (.body f args kwargs) st with
        | (.ok _, st1) => exec fuel (.chain next ref args kwargs) st1
        | (.error e, st1) => (.error e, st1)
      | .around f next =>
        let backup := st.tlsContext
        let st1 : DState :=
          { st with tlsContext := some ref, heap := setNxt st.heap ref (some next) }
        match exec fuel (.body f args kwargs) st1 with
        | (.ok v, st2) => (.ok v, { st2 with tlsContext := backup })
        | (.error e, st2) => (.error e, st2)
      | .after f next =>
        match exec fuel (.chain next ref args kwargs) st with
        | (.ok r, st1) => exec fuel (.body f args (("__result__", r) :: kwargs)) st1
        | (.error e, st1) => (.error e, st1)
    | .body b args kwargs =>
      match b with
      | .ret v => (.ok v, st)
      | .retArgs => (.ok (encodeArgs args kwargs), st)
      | .proceedNone => exec fuel (.proceedT [] []) st
      | .proceedWith a k => exec fuel (.proceedT a k) st
      | .raiseE msg => (.error (.exception msg), st)
      | .wrap tag =>
        match exec fuel (.proceedT args kwargs) st with
        | (.ok v, st1) => (.ok (.pair (.int tag) v), st1)
        | (.error e, st1) => (.error e, st1)
    | .proceedT args kwargs =>
      match st.tlsContext with
      | none => (.error (.typeError noContextMessage), st)
      | some r =>
        match st.heap.get? r with
        | none => (.error (.typeError noContextMessage), st)
        | some ctx =>
          match ctx.nxt with
          | none => (.error (.typeError noNextMessage), st)
          | some c => exec fuel (.chain c r args kwargs) st

/-- Run a chain link (`advice(context, args, kwargs)`). -/
def runChain (fuel : Nat) (c : Chain) (ref : Nat) (args : Args) (kwargs : Kwargs)
    (st : DState) : (Except PyErr Val) × DState :=
  exec fuel (.chain c ref args kwargs) st

/-- Run an advice body. -/
def runBody (fuel : Nat) (b : Body) (args : Args) (kwargs : Kwargs)
    (st : DState) : (Except PyErr Val) × DState :=
  exec fuel (.body b args kwargs) st

/-- Model of `proceed(*args, **kwargs)` (src/contextpy.py:198-200). -/
def proceed (fuel : Nat) (args : Args) (kwargs : Kwargs)
    (st : DState) : (Except PyErr Val) × DState :=
  exec fuel (.proceedT args kwargs) st

/-- A registered advice record, the tuple
`(layer_, f, when, guard, methodName)` appended by
`_LayeredMethodDescriptor.registerMethod` (src/contextpy.py:285-286). -/
structure MethodRecord where
  layer_ : LayerRef
  func : Body
  when : AdviceKind
  guard : Guard
  methodName : String
deriving DecidableEq

/-- Per-method registry state of `_LayeredMethodDescriptor`
(src/contextpy.py:242-245): the advice list `_methods` and the chain cache
`_cache`, an insertion-ordered dict keyed by the exact combination tuple. -/
structure LayeredMethodDescriptor where
  methods : List MethodRecord
  cache : List (Combination × Chain)
deriving DecidableEq

/-- Model of `dict.get`: look up a cache entry under the exact combination key. -/
def dictGet (cache : List (Combination × Chain)) (k : Combination) : Option Chain :=
  match cache with
  | [] => none
  | (k', v) :: rest => if k' = k then some v else dictGet rest k

/-- Model of `dict.__setitem__`: replace the value in place if the key is present,
else append a new entry (Python dicts preserve insertion order). -/
def dictSet (cache : List (Combination × Chain)) (k : Combination) (v : Chain) :
    List (Combination × Chain) :=
  match cache with
  | [] => [(k, v)]
  | (k', v') :: rest => if k' = k then (k', v) :: rest else (k', v') :: dictSet rest k v

/-- Message of the RuntimeError CPython raises when a dict changes size
while one of its key-view iterators is being advanced. -/
def dictMutationMessage : String := "dictionary changed size during iteration"

/-- The loop body of `_LayeredMethodDescriptor._clearCache`
(src/contextpy.py:247-249): `for key in self._cache.keys(): self._cache.pop(key, None)`.
A CPython dict-keys iterator records the dict size at creation (`diUsed`) and,
on every advance (including the one that would report exhaustion), first
checks that the current size still equals it, raising RuntimeError otherwise.
So the loop yields the first key, pops it, and the very next advance raises,
leaving every remaining entry in the cache. -/
def clearCacheLoop (diUsed : Nat) :
    List (Combination × Chain) → Option PyErr × List (Combination × Chain)
  | [] =>
    if (0 : Nat) ≠ diUsed then (some (.runtimeError dictMutationMessage), [])
    else (none, [])
  | (k, v) :: rest =>
    if ((k, v) :: rest).length ≠ diUsed then
      (some (.runtimeError dictMutationMessage), (k, v) :: rest)
    else clearCacheLoop diUsed rest

/-- Model of `_LayeredMethodDescriptor._clearCache` (src/contextpy.py:247-249). -/
def clearCache (cache : List (Combination × Chain)) :
    Option PyErr × List (Combination × Chain) :=
  clearCacheLoop cache.length cache

/-- Model of `_LayeredMethodDescriptor.setMethods` (src/contextpy.py:268-270):
`self._methods[:] = methods` replaces the advice list in place, then
`self._clearCache()` runs (and may raise after the list was updated). -/
def setMethods (d : LayeredMethodDescriptor) (ms : List MethodRecord) :
    Option PyErr × LayeredMethodDescriptor :=
  let (err, cache') := clearCache d.cache
  (err, { methods := ms, cache := cache' })

/-- Model of `_LayeredMethodDescriptor.registerMethod` (src/contextpy.py:275-286):
appends the record `(layer_, f, when, guard, methodName)` through the
`methods` property setter. -/
def registerMethod (d : LayeredMethodDescriptor) (f : Body) (when : AdviceKind)
    (layer_ : LayerRef) (guard : Guard) (methodName : String) :
    Option PyErr × LayeredMethodDescriptor :=
  setMethods d (d.methods ++ [⟨layer_, f, when, guard, methodName⟩])

/-- Model of `_LayeredMethodDescriptor.unregisterMethod` (src/contextpy.py:288-290)
reads `self._descriptor.methods`, but `_LayeredMethodDescriptor` has no
`_descriptor` attribute (that attribute lives on
`_LayeredMethodInvocationProxy`), so the attribute lookup raises
AttributeError before any state is touched. -/
def unregisterMethod (d : LayeredMethodDescriptor) (f : Body) (layer_ : LayerRef) :
    Option PyErr × LayeredMethodDescriptor :=
  (some (.attributeError "_LayeredMethodDescriptor object has no attribute _descriptor"), d)

/-- One record of the inner loop of `cacheMethods`: does `lmwgm` match
`currentlayer` and does its guard accept the full combination
(src/contextpy.py:260-262)?  `is` identity on layer tokens is equality of
`LayerRef`. -/
def recordMatches (m : MethodRecord) (currentlayer : LayerRef)
    (activelayers : Combination) : Bool :=
  decide (m.layer_ = currentlayer) && evalGuard m.guard activelayers

/-- The inner `for lmwgm in self._methods` loop of `cacheMethods` for one
value of `currentlayer`, collecting `(lmwgm[1], lmwgm[2])` pairs
(src/contextpy.py:260-262). -/
def collectForLayer (methods : List MethodRecord) (activelayers : Combination)
    (currentlayer : LayerRef) : List (Body × AdviceKind) :=
  (methods.filter fun m => recordMatches m currentlayer activelayers).map
    fun m => (m.func, m.when)

/-- The outer `for currentlayer in activelayers` loop of `cacheMethods`
(src/contextpy.py:259-262), iterating over the remaining combination entries
while guards always receive the full combination. -/
def collectLoop (methods : List MethodRecord) (activelayers : Combination) :
    Combination → List (Body × AdviceKind)
  | [] => []
  | cur :: rest =>
    collectForLayer methods activelayers cur ++ collectLoop methods activelayers rest

/-- The `methods` list built by `cacheMethods` before reversal
(src/contextpy.py:258-262). -/
def collectMethods (methods : List MethodRecord) (activelayers : Combination) :
    List (Body × AdviceKind) :=
  collectLoop methods activelayers activelayers

/-- Model of `_Advice.createChain` (src/contextpy.py:160-165): fold the (already
reversed) record list into a chain, terminated by `_Stop(None, None)`. -/
def createChain : List (Body × AdviceKind) → Chain
  | [] => .stop
  | (f, w) :: rest =>
    match w with
    | .before => .before f (createChain rest)
    | .around => .around f (createChain rest)
    | .after => .after f (createChain rest)

/-- Model of `_LayeredMethodDescriptor.cacheMethods` (src/contextpy.py:251-266):
collect the eligible records in combination order, reverse the whole list,
build the chain and store it in the cache under the exact combination key.
(The `getEffectiveLayers` loop of lines 252-256 computes a list that is
never used afterwards, `Layer.getEffectiveLayers` being the identity;
it is omitted here.) -/
def cacheMethods (d : LayeredMethodDescriptor) (activelayers : Combination) :
    Chain × LayeredMethodDescriptor :=
  let result := createChain (collectMethods d.methods activelayers).reverse
  (result, { d with cache := dictSet d.cache activelayers result })

/-- The chain lookup of `_LayeredMethodInvocationProxy.__call__`
(src/contextpy.py:217): `self._descriptor._cache.get(activelayers) or
self.cacheMethods(activelayers)`.  Chain objects are class instances and
hence always truthy, so `or` is exactly the `Option` fallback. -/
def resolveChain (d : LayeredMethodDescriptor) (activelayers : Combination) :
    Chain × LayeredMethodDescriptor :=
  match dictGet d.cache activelayers with
  | some advice => (advice, d)
  | none => cacheMethods d activelayers

/-- Initial value of the process-wide `_baseLayers` tuple: `(None,)`
(src/contextpy.py:39-40). -/
def baseLayersInit : Combination := [none]

/-- The combination a dispatch runs under:
`activelayers = _baseLayers + _tls.activelayers` (src/contextpy.py:216). -/
def dispatchCombination (baseLayers : Combination) (st : DState) : Combination :=
  baseLayers ++ st.activelayers.map some

/-- Model of `_LayeredMethodInvocationProxy.__call__` (src/contextpy.py:215-221):
compute the current combination, fetch or build+cache the chain, allocate a
fresh dispatch context `[inst, cls, None]`, and invoke the chain with it.
(`_LayeredMethodDescriptor.__call__`, src/contextpy.py:298-305, is the same
with `inst = cls = None`.) -/
def proxyCall (fuel : Nat) (d : LayeredMethodDescriptor) (baseLayers : Combination)
    (inst cls : Val) (args : Args) (kwargs : Kwargs) (st : DState) :
    ((Except PyErr Val) × DState) × LayeredMethodDescriptor :=
  let activelayers := dispatchCombination baseLayers st
  let adviceAndD := resolveChain d activelayers
  let ref := st.heap.length
  let st1 : DState := { st with heap := st.heap ++ [⟨inst, cls, none⟩] }
  (runChain fuel adviceAndD.1 ref args kwargs st1, adviceAndD.2)

/-- A `_LayerManager` instance (src/contextpy.py:87-93): the layers the
manager was created with and the `_oldLayers` snapshot (initially `()`). -/
structure LayerManager where
  layers : List LayerId
  oldLayers : List LayerId
deriving DecidableEq

/-- Model of `activeLayers(*layers)` / `activeLayer(layer)`
(src/contextpy.py:123-132): a fresh `_LayerActivationManager`. -/
def activeLayersManager (layers : List LayerId) : LayerManager :=
  { layers := layers, oldLayers := [] }

/-- Model of `_LayerActivationManager._getActiveLayers` (src/contextpy.py:110-112):
the old layers with any of the manager's layers removed, followed by the
manager's layers. -/
def activationGetActiveLayers (m : LayerManager) : List LayerId :=
  (m.oldLayers.filter fun l => !(m.layers.contains l)) ++ m.layers

/-- Model of `_LayerDeactivationManager._getActiveLayers` (src/contextpy.py:119-120). -/
def deactivationGetActiveLayers (m : LayerManager) : List LayerId :=
  m.oldLayers.filter fun l => !(m.layers.contains l)

/-- Model of `_LayerManager.__enter__` for an activation manager
(src/contextpy.py:98-100): snapshot `_tls.activelayers` into `_oldLayers`,
then install the computed new tuple. -/
def activationEnter (m : LayerManager) (st : DState) : LayerManager × DState :=
  let m' := { m with oldLayers := st.activelayers }
  (m', { st with activelayers := activationGetActiveLayers m' })

/-- Model of `_LayerManager.__enter__` for a deactivation manager. -/
def deactivationEnter (m : LayerManager) (st : DState) : LayerManager × DState :=
  let m' := { m with oldLayers := st.activelayers }
  (m', { st with activelayers := deactivationGetActiveLayers m' })

/-- Model of `_LayerManager.__exit__` (src/contextpy.py:102-103): restore the saved
tuple unconditionally; the exception information (`exc`, if any) is ignored. -/
def managerExit (m : LayerManager) (exc : Option PyErr) (st : DState) : DState :=
  { st with activelayers := m.oldLayers }

/-- Model of `globalActivateLayer` (src/contextpy.py:373-378). -/
def globalActivateLayer (baseLayers : Combination) (layer : LayerRef) :
    Except PyErr Combination :=
  if baseLayers.contains layer then .error (.valueError "layer is already active")
  else .ok (baseLayers ++ [layer])

/-- Model of `globalDeactivateLayer` (src/contextpy.py:381-386). -/
def globalDeactivateLayer (baseLayers : Combination) (layer : LayerRef) :
    Except PyErr Combination :=
  if !(baseLayers.contains layer) then .error (.valueError "layer is not active")
  else .ok (baseLayers.filter fun l => l ≠ layer)

/-- The innermost substantive link of a chain: the advice record of the link
sitting directly above the terminal `stop` link, if any. -/
def lastLink? : Chain → Option (Body × AdviceKind)
  | .stop => none
  | .before f c => some ((lastLink? c).getD (f, .before))
  | .around f c => some ((lastLink? c).getD (f, .around))
  | .after f c => some ((lastLink? c).getD (f, .after))

/-- Chain execution never touches the execution context's active-layers
tuple: only `_Around` mutates thread-local state, and it only writes the
`context` slot, never `activelayers`. -/
theorem exec_activelayers (fuel : Nat) :
    ∀ (t : Task) (st : DState), ((exec fuel t st).2).activelayers = st.activelayers := by
  induction fuel with
  | zero => intro t st; rfl
  | succ n ih =>
    intro t st
    cases t with
    | chain c ref args kwargs =>
      cases c with
      | stop => rfl
      | before f next =>
        simp only [exec]
        split
        · rename_i v st1 heq
          have h1 := ih (Task.body f args kwargs) st
          rw [heq] at h1
          have h2 := ih (Task.chain next ref args kwargs) st1
          simpa [h2] using h1
        · rename_i e st1 heq
          have h1 := ih (Task.body f args kwargs) st
          rw [heq] at h1
          simpa using h1
      | around f next =>
        simp only [exec]
        split
        · rename_i v st2 heq
          have h1 := ih (Task.body f args kwargs)
            { st with tlsContext := some ref, heap := setNxt st.heap ref (some next) }
          rw [heq] at h1
          simpa using h1
        · rename_i e st2 heq
          have h1 := ih (Task.body f args kwargs)
            { st with tlsContext := some ref, heap := setNxt st.heap ref (some next) }
          rw [heq] at h1
          simpa using h1
      | after f next =>
        simp only [exec]
        split
        · rename_i r st1 heq
          have h1 := ih (Task.chain next ref args kwargs) st
          rw [heq] at h1
          have h2 := ih (Task.body f args (("__result__", r) :: kwargs)) st1
          simpa [h2] using h1
        · rename_i e st1 heq
          have h1 := ih (Task.chain next ref args kwargs) st
          rw [heq] at h1
          simpa using h1
    | body b args kwargs =>
      cases b with
      | ret v => rfl
      | retArgs => rfl
      | raiseE msg => rfl
      | proceedNone => simpa [exec] using ih (Task.proceedT [] []) st
      | proceedWith a k => simpa [exec] using ih (Task.proceedT a k) st
      | wrap tag =>
        simp only [exec]
        split
        · rename_i v st1 heq
          have h1 := ih (Task.proceedT args kwargs) st
          rw [heq] at h1
          simpa using h1
        · rename_i e st1 heq
          have h1 := ih (Task.proceedT args kwargs) st
          rw [heq] at h1
          simpa using h1
    | proceedT args kwargs =>
      simp only [exec]
      split
      · rfl
      · rename_i r htls
        split
        · rfl
        · rename_i ctx hget
          split
          · rfl
          · rename_i c hnxt
            exact ih (Task.chain c r args kwargs) st

/-- A cache lookup only ever returns an entry stored under exactly the
requested combination key. -/
theorem dictGet_mem {cache : List (Combination × Chain)} {k : Combination}
    {v : Chain} (h : dictGet cache k = some v) : (k, v) ∈ cache := by
  induction cache with
  | nil => simp [dictGet] at h
  | cons kv rest ih =>
    rcases kv with ⟨k', v'⟩
    by_cases hk : k' = k
    · subst hk
      simp [dictGet] at h
      simp [h]
    · simp only [dictGet, if_neg hk] at h
      exact List.mem_cons_of_mem _ (ih h)

/-- Storing under an absent key appends the new entry at the end. -/
theorem dictGet_none_dictSet {cache : List (Combination × Chain)}
    {k : Combination} {v : Chain} (h : dictGet cache k = none) :
    dictSet cache k v = cache ++ [(k, v)] := by
  induction cache with
  | nil => rfl
  | cons kv rest ih =>
    rcases kv with ⟨k', v'⟩
    by_cases hk : k' = k
    · subst hk; simp [dictGet] at h
    · simp only [dictGet, if_neg hk] at h
      simp [dictSet, hk, ih h]

/-- Storing a chain under one key never changes what a lookup under a
different key returns. -/
theorem dictGet_dictSet_ne {cache : List (Combination × Chain)}
    {k1 k2 : Combination} {w : Chain} (hne : k1 ≠ k2) :
    dictGet (dictSet cache k1 w) k2 = dictGet cache k2 := by
  induction cache with
  | nil => simp [dictSet, dictGet, hne]
  | cons kv rest ih =>
    rcases kv with ⟨k', v'⟩
    by_cases hk : k' = k1
    · subst hk
      simp [dictSet, dictGet, hne]
    · by_cases hk2 : k' = k2
      · simp [dictSet, dictGet, hk, hk2, Ne.symm hne]
      · simp [dictSet, dictGet, hk, hk2, ih]

/-- Resolving a chain (cache hit or rebuild) never changes the advice list. -/
theorem resolveChain_methods (d : LayeredMethodDescriptor) (c : Combination) :
    ((resolveChain d c).2).methods = d.methods := by
  unfold resolveChain
  cases h : dictGet d.cache c with
  | none => simp [cacheMethods]
  | some adv => simp

/-- The innermost substantive link of a chain built by `createChain` is the
last record of the folded list. -/
theorem lastLink?_createChain :
    ∀ (l : List (Body × AdviceKind)), lastLink? (createChain l) = l.getLast? := by
  intro l
  induction l with
  | nil => rfl
  | cons x rest ih =>
    rcases x with ⟨f, w⟩
    cases rest with
    | nil => cases w <;> rfl
    | cons y ys =>
      rw [List.getLast?_cons_cons]
      have hy : ∃ z, (y :: ys).getLast? = some z :=
        Option.isSome_iff_exists.mp (List.getLast?_isSome.mpr (by simp))
      rcases hy with ⟨z, hz⟩
      cases w with
      | before =>
        show some ((lastLink? (createChain (y :: ys))).getD (f, .before)) = (y :: ys).getLast?
        rw [ih, hz]; rfl
      | around =>
        show some ((lastLink? (createChain (y :: ys))).getD (f, .around)) = (y :: ys).getLast?
        rw [ih, hz]; rfl
      | after =>
        show some ((lastLink? (createChain (y :: ys))).getD (f, .after)) = (y :: ys).getLast?
        rw [ih, hz]; rfl

/-- A record whose layer occurs among the iterated layers and whose guard
accepts the full combination contributes its `(func, when)` pair to the
collected list. -/
theorem collectLoop_mem_of {methods : List MethodRecord} {comb : Combination}
    {m : MethodRecord} :
    ∀ {layers : Combination}, m.layer_ ∈ layers → m ∈ methods →
      evalGuard m.guard comb = true →
      (m.func, m.when) ∈ collectLoop methods comb layers := by
  intro layers
  induction layers with
  | nil => intro h; simp at h
  | cons cur rest ih =>
    intro hcur hm hg
    simp only [collectLoop]
    rcases List.mem_cons.mp hcur with hc | hc
    · apply List.mem_append_left
      subst hc
      exact List.mem_map.mpr
        ⟨m, List.mem_filter.mpr ⟨hm, by simp [recordMatches, hg]⟩, rfl⟩
    · exact List.mem_append_right _ (ih hc hm hg)

/-- Conversely, every pair in the collected list comes from a registered
record whose layer occurs among the iterated layers and whose guard was
evaluated to true on the full combination. -/
theorem collectLoop_mem_elim {methods : List MethodRecord} {comb : Combination}
    {x : Body × AdviceKind} :
    ∀ {layers : Combination}, x ∈ collectLoop methods comb layers →
      ∃ m, m ∈ methods ∧ (m.layer_ ∈ layers ∧ evalGuard m.guard comb = true) ∧
        m.func = x.1 ∧ m.when = x.2 := by
  intro layers
  induction layers with
  | nil => intro h; simp [collectLoop] at h
  | cons cur rest ih =>
    intro h
    simp only [collectLoop] at h
    rcases List.mem_append.mp h with h | h
    · rcases List.mem_map.mp h with ⟨m, hm, hx⟩
      rcases List.mem_filter.mp hm with ⟨hmem, hmatch⟩
      have hlg : m.layer_ = cur ∧ evalGuard m.guard comb = true := by
        simpa [recordMatches] using hmatch
      refine ⟨m, hmem, ⟨?_, hlg.2⟩, ?_, ?_⟩
      · rw [hlg.1]; exact List.mem_cons_self _ _
      · rw [← hx]
      · rw [← hx]
    · rcases ih h with ⟨m, hm, ⟨hl, hg⟩, hf, hw⟩
      exact ⟨m, hm, ⟨List.mem_cons_of_mem _ hl, hg⟩, hf, hw⟩

/-- C1: the claim says registering or unregistering advice clears all cached
chains of the method, so a later call reflects the updated advice list.  The
code violates this: `_clearCache` pops keys out of the dict it is iterating,
so with a non-empty cache CPython raises RuntimeError after the first pop;
on a registry with two cached combinations, `registerMethod` updates the
advice list, raises, and leaves the second (now stale) chain cached, so a
dispatch under that combination still returns the old result (1) while a
fresh build of the same combination returns the new result (2); and
`unregisterMethod` always raises AttributeError (it reads the nonexistent
`self._descriptor`) without touching any state. -/
theorem c1_register_fails_to_clear_cache :
    (registerMethod
        ⟨[⟨none, Body.ret (.int 1), .around, .true_, "m"⟩],
         [([none], Chain.around (.ret (.int 1)) .stop),
          ([none, some 1], Chain.around (.ret (.int 1)) .stop)]⟩
        (.ret (.int 2)) .around (some 1) .true_ "m")
      = (some (.runtimeError dictMutationMessage),
         ⟨[⟨none, Body.ret (.int 1), .around, .true_, "m"⟩,
           ⟨some 1, Body.ret (.int 2), .around, .true_, "m"⟩],
          [([none, some 1], Chain.around (.ret (.int 1)) .stop)]⟩) ∧
    ((proxyCall 10
        ⟨[⟨none, Body.ret (.int 1), .around, .true_, "m"⟩,
          ⟨some 1, Body.ret (.int 2), .around, .true_, "m"⟩],
         [([none, some 1], Chain.around (.ret (.int 1)) .stop)]⟩
        baseLayersInit .none_ .none_ [] [] ⟨none, [1], []⟩).1).1
      = .ok (.int 1) ∧
    ((proxyCall 10
        ⟨[⟨none, Body.ret (.int 1), .around, .true_, "m"⟩,
          ⟨some 1, Body.ret (.int 2), .around, .true_, "m"⟩],
         []⟩
        baseLayersInit .none_ .none_ [] [] ⟨none, [1], []⟩).1).1
      = .ok (.int 2) ∧
    (unregisterMethod ⟨[⟨none, Body.ret (.int 1), .around, .true_, "m"⟩], []⟩
        (.ret (.int 1)) none)
      = (some (.attributeError
            "_LayeredMethodDescriptor object has no attribute _descriptor"),
         ⟨[⟨none, Body.ret (.int 1), .around, .true_, "m"⟩], []⟩) :=
  ⟨rfl, rfl, rfl, rfl⟩

/-- C2 (amended): the execution-context-local pointer saved by an `_Around`
link on entry is restored when the advice implementation returns normally;
when the implementation raises, the exception propagates without the restore
(the source has no try/finally), so the amended claim covers only the
normal-return path. -/
theorem c2_around_restores_on_normal_return (fuel : Nat) (f : Body)
    (next : Chain) (ref : Nat) (args : Args) (kwargs : Kwargs)
    (st st' : DState) (v : Val)
    (h : runChain (fuel + 1) (.around f next) ref args kwargs st = (.ok v, st')) :
    st'.tlsContext = st.tlsContext := by
  simp only [runChain, exec] at h
  split at h
  · rename_i w st2 heq
    rw [Prod.mk.injEq] at h
    rw [← h.2]
  · rename_i e st2 heq
    rw [Prod.mk.injEq] at h
    exact absurd h.1 (by simp)

/-- Witness for C2 (amended): a concrete `_Around` link whose body returns
normally; the final context pointer equals the initial one. -/
theorem c2_around_restores_witness :
    ((⟨none, [], [⟨Val.none_, Val.none_, some Chain.stop⟩]⟩ : DState)).tlsContext
      = ((⟨none, [], [⟨Val.none_, Val.none_, none⟩]⟩ : DState)).tlsContext :=
  c2_around_restores_on_normal_return 5 (.ret (.int 0)) .stop 0 [] []
    ⟨none, [], [⟨Val.none_, Val.none_, none⟩]⟩
    ⟨none, [], [⟨Val.none_, Val.none_, some Chain.stop⟩]⟩ (.int 0) rfl

/-- C2 counterexample: when the Around implementation raises, the exception
propagates with the context-local dispatch pointer still set to the raising
dispatch's context (`some 0`), not restored to its pre-entry value (`none`),
refuting the claim that the saved pointer is restored in all cases. -/
theorem c2_counterexample :
    runChain 6 (.around (.raiseE "boom") .stop) 0 [] []
        (⟨none, [], [⟨Val.none_, Val.none_, none⟩]⟩ : DState)
      = (.error (.exception "boom"),
         (⟨some 0, [], [⟨Val.none_, Val.none_, some Chain.stop⟩]⟩ : DState)) ∧
    (some 0 : Option Nat)
      ≠ (⟨none, [], [⟨Val.none_, Val.none_, none⟩]⟩ : DState).tlsContext :=
  ⟨rfl, by decide⟩

/-- C3 (amended): `proceed` invokes the next link with exactly the arguments
it was itself given; in particular a call with no arguments invokes the next
link with empty positional and keyword arguments, not with the arguments the
enclosing advice received. -/
theorem c3_proceed_forwards_given_arguments (fuel : Nat) (a args : Args)
    (k kwargs : Kwargs) (st : DState) (r : Nat) (ctx : Ctx) (c : Chain)
    (h1 : st.tlsContext = some r) (h2 : st.heap.get? r = some ctx)
    (h3 : ctx.nxt = some c) :
    proceed (fuel + 1) a k st = runChain fuel c r a k st ∧
    runBody (fuel + 1) (.proceedWith a k) args kwargs st = proceed fuel a k st ∧
    runBody (fuel + 1) .proceedNone args kwargs st = proceed fuel [] [] st := by
  refine ⟨?_, rfl, rfl⟩
  simp only [proceed, runChain, exec, h1, h2, h3]

/-- Witness for C3 (amended) at a concrete dispatch state. -/
theorem c3_proceed_forwards_witness :
    proceed (3 + 1) [Val.int 7] []
        (⟨some 0, [], [⟨Val.none_, Val.none_, some Chain.stop⟩]⟩ : DState)
      = runChain 3 Chain.stop 0 [Val.int 7] []
          (⟨some 0, [], [⟨Val.none_, Val.none_, some Chain.stop⟩]⟩ : DState) ∧
    runBody (3 + 1) (.proceedWith [Val.int 7] []) [] []
        (⟨some 0, [], [⟨Val.none_, Val.none_, some Chain.stop⟩]⟩ : DState)
      = proceed 3 [Val.int 7] []
          (⟨some 0, [], [⟨Val.none_, Val.none_, some Chain.stop⟩]⟩ : DState) ∧
    runBody (3 + 1) .proceedNone [] []
        (⟨some 0, [], [⟨Val.none_, Val.none_, some Chain.stop⟩]⟩ : DState)
      = proceed 3 [] []
          (⟨some 0, [], [⟨Val.none_, Val.none_, some Chain.stop⟩]⟩ : DState) :=
  c3_proceed_forwards_given_arguments 3 [Val.int 7] [] [] []
    ⟨some 0, [], [⟨Val.none_, Val.none_, some Chain.stop⟩]⟩ 0
    ⟨Val.none_, Val.none_, some Chain.stop⟩ Chain.stop rfl rfl rfl

/-- C3 counterexample: an Around advice that receives the positional argument
5 and calls `proceed()` with no arguments; the next link observes empty
positional and keyword arguments, not the argument the enclosing advice
received, refuting the claim that a no-argument `proceed()` forwards the
enclosing advice's arguments. -/
theorem c3_counterexample :
    (runChain 9 (.around .proceedNone (.around .retArgs .stop)) 0 [Val.int 5] []
        (⟨none, [], [⟨Val.none_, Val.none_, none⟩]⟩ : DState)).1
      = .ok (encodeArgs [] []) ∧
    encodeArgs [] [] ≠ encodeArgs [Val.int 5] [] :=
  ⟨rfl, by decide⟩

/-- C4: with the combination `[None, L1, L2]` (L2 activated most recently)
and Around advice registered on the base layer, L1 and L2, the built chain
wraps L2's advice outermost, then L1's, with the base implementation
innermost above the terminal stop link, for any advice bodies and any two
distinct layers. -/
theorem c4_around_precedence (l1 l2 : LayerId) (f1 f2 fb : Body)
    (h12 : l1 ≠ l2) :
    (cacheMethods
        ⟨[⟨none, fb, .around, .true_, "base"⟩,
          ⟨some l1, f1, .around, .true_, "m1"⟩,
          ⟨some l2, f2, .around, .true_, "m2"⟩], []⟩
        [none, some l1, some l2]).1
      = .around f2 (.around f1 (.around fb .stop)) := by
  simp [cacheMethods, collectMethods, collectLoop, collectForLayer,
    recordMatches, evalGuard, createChain, List.filter_cons, h12, Ne.symm h12]

/-- Witness for C4 at concrete layers 1 and 2 and concrete bodies. -/
theorem c4_around_precedence_witness :
    (cacheMethods
        ⟨[⟨none, Body.ret (.int 0), .around, .true_, "base"⟩,
          ⟨some 1, Body.ret (.int 1), .around, .true_, "m1"⟩,
          ⟨some 2, Body.ret (.int 2), .around, .true_, "m2"⟩], []⟩
        [none, some 1, some 2]).1
      = .around (Body.ret (.int 2))
          (.around (Body.ret (.int 1)) (.around (Body.ret (.int 0)) .stop)) :=
  c4_around_precedence 1 2 (Body.ret (.int 1)) (Body.ret (.int 2))
    (Body.ret (.int 0)) (by decide)

/-- C5: entering an activation scope installs the previous active set minus
the given layers followed by the given layers; exiting restores the saved
set unconditionally (the exception argument, if any, is ignored), and nested
scopes restore exactly: after entering A then B, exiting B returns to the
post-A set and exiting A returns to the original set. -/
theorem c5_scoped_activation (st : DState) (A B : List LayerId)
    (excB excA : Option PyErr) :
    ((activationEnter (activeLayersManager A) st).2).activelayers
      = (st.activelayers.filter fun l => !(A.contains l)) ++ A ∧
    (managerExit ((activationEnter (activeLayersManager B)
          ((activationEnter (activeLayersManager A) st).2)).1) excB
        ((activationEnter (activeLayersManager B)
          ((activationEnter (activeLayersManager A) st).2)).2)).activelayers
      = ((activationEnter (activeLayersManager A) st).2).activelayers ∧
    (managerExit ((activationEnter (activeLayersManager A) st).1) excA
        (managerExit ((activationEnter (activeLayersManager B)
            ((activationEnter (activeLayersManager A) st).2)).1) excB
          ((activationEnter (activeLayersManager B)
            ((activationEnter (activeLayersManager A) st).2)).2))).activelayers
      = st.activelayers :=
  ⟨rfl, rfl, rfl⟩

/-- C6: when the first eligible record of the base (None) entry of the
combination exists, it is the innermost substantive link of the built chain;
the terminal stop link raises the configuration error when invoked; and a
dispatch whose combination matches no advice at all (and has no cached
chain) surfaces exactly that error. -/
theorem c6_base_innermost_stop_raises
    (methods : List MethodRecord) (rest : Combination)
    (d : LayeredMethodDescriptor) (b : Combination) (inst cls : Val)
    (fb : Body) (wb : AdviceKind) (tl : List (Body × AdviceKind))
    (fuel ref : Nat) (args : Args) (kwargs : Kwargs) (st : DState)
    (hbase : collectForLayer methods (none :: rest) none = (fb, wb) :: tl)
    (hempty : collectMethods d.methods (dispatchCombination b st) = [])
    (hmiss : dictGet d.cache (dispatchCombination b st) = none) :
    lastLink? (cacheMethods ⟨methods, []⟩ (none :: rest)).1 = some (fb, wb) ∧
    runChain (fuel + 1) .stop ref args kwargs st
      = (.error (.exception stopMessage), st) ∧
    ((proxyCall (fuel + 1) d b inst cls args kwargs st).1).1
      = .error (.exception stopMessage) := by
  refine ⟨?_, rfl, ?_⟩
  · rw [show (cacheMethods ⟨methods, []⟩ (none :: rest)).1
        = createChain (collectMethods methods (none :: rest)).reverse from rfl]
    rw [lastLink?_createChain, List.getLast?_reverse]
    simp [collectMethods, collectLoop, hbase]
  · simp [proxyCall, resolveChain, hmiss, cacheMethods, hempty, runChain,
      exec, createChain]

/-- Witness for C6: a registry with only a base record, and a dispatch on an
empty registry that raises the configuration error. -/
theorem c6_witness :
    lastLink? (cacheMethods
        ⟨[⟨none, Body.ret (.int 1), .around, .true_, "m"⟩], []⟩ [none]).1
      = some (Body.ret (.int 1), .around) ∧
    runChain (3 + 1) .stop 0 [] [] (⟨none, [], []⟩ : DState)
      = (.error (.exception stopMessage), (⟨none, [], []⟩ : DState)) ∧
    ((proxyCall (3 + 1) ⟨[], []⟩ [none] .none_ .none_ [] []
        (⟨none, [], []⟩ : DState)).1).1
      = .error (.exception stopMessage) :=
  c6_base_innermost_stop_raises
    [⟨none, Body.ret (.int 1), .around, .true_, "m"⟩] [] ⟨[], []⟩ [none]
    .none_ .none_ (Body.ret (.int 1)) .around [] 3 0 [] [] ⟨none, [], []⟩
    rfl rfl rfl

/-- C7: calling `proceed` while no dispatch is in progress (the
execution-context-local context slot is `None`) raises an error — the
subscript of `None` fails — instead of returning, and leaves the state
unchanged.  This is the UsageError of the specification. -/
theorem c7_proceed_outside_dispatch (fuel : Nat) (args : Args)
    (kwargs : Kwargs) (st : DState) (h : st.tlsContext = none) :
    proceed (fuel + 1) args kwargs st
      = (.error (.typeError noContextMessage), st) := by
  simp only [proceed, exec, h]

/-- Witness for C7 in the initial thread-local state. -/
theorem c7_proceed_outside_dispatch_witness :
    proceed (0 + 1) [] [] (⟨none, [], []⟩ : DState)
      = (.error (.typeError noContextMessage), (⟨none, [], []⟩ : DState)) :=
  c7_proceed_outside_dispatch 0 [] [] ⟨none, [], []⟩ rfl

/-- C8: the chain cache is keyed by the exact combination: a successful
lookup returns an entry stored under precisely that key (so the chain cached
for one combination is never returned for a different one), a cache hit in
`resolveChain` returns exactly that stored chain with the registry
unchanged, and storing a chain under one key never changes the lookup
result under any other key. -/
theorem c8_cache_key_correctness (d : LayeredMethodDescriptor)
    (comb k1 k2 : Combination) (v w : Chain)
    (cache : List (Combination × Chain))
    (hne : k1 ≠ k2) (h : dictGet d.cache comb = some v) :
    (comb, v) ∈ d.cache ∧
    resolveChain d comb = (v, d) ∧
    dictGet (dictSet cache k1 w) k2 = dictGet cache k2 := by
  refine ⟨dictGet_mem h, ?_, dictGet_dictSet_ne hne⟩
  simp [resolveChain, h]

/-- Witness for C8 at a concrete cache. -/
theorem c8_cache_key_correctness_witness :
    (([none] : Combination), Chain.stop)
        ∈ (⟨[], [([none], Chain.stop)]⟩ : LayeredMethodDescriptor).cache ∧
    resolveChain (⟨[], [([none], Chain.stop)]⟩ : LayeredMethodDescriptor) [none]
      = (Chain.stop, (⟨[], [([none], Chain.stop)]⟩ : LayeredMethodDescriptor)) ∧
    dictGet (dictSet [([none], Chain.stop)] [none] Chain.stop) [none, some 1]
      = dictGet [([none], Chain.stop)] [none, some 1] :=
  c8_cache_key_correctness ⟨[], [([none], Chain.stop)]⟩ [none] [none]
    [none, some 1] Chain.stop Chain.stop [([none], Chain.stop)]
    (by decide) rfl

/-- C9: a dispatch never modifies the caller's active-layers tuple nor the
registered advice list, and the only registry change it can make is to add
the single cache entry for the current dispatch combination (on a cache
miss); on a hit the registry is untouched. -/
theorem c9_dispatch_frame (fuel : Nat) (d : LayeredMethodDescriptor)
    (b : Combination) (inst cls : Val) (args : Args) (kwargs : Kwargs)
    (st : DState) :
    (((proxyCall fuel d b inst cls args kwargs st).1).2).activelayers
      = st.activelayers ∧
    ((proxyCall fuel d b inst cls args kwargs st).2).methods = d.methods ∧
    (((proxyCall fuel d b inst cls args kwargs st).2).cache = d.cache ∨
      ((proxyCall fuel d b inst cls args kwargs st).2).cache
        = d.cache ++ [(dispatchCombination b st,
            (cacheMethods d (dispatchCombination b st)).1)]) := by
  refine ⟨?_, resolveChain_methods d _, ?_⟩
  · have h := exec_activelayers fuel
      (Task.chain (resolveChain d (dispatchCombination b st)).1
        st.heap.length args kwargs)
      { st with heap := st.heap ++ [⟨inst, cls, none⟩] }
    simpa [proxyCall, runChain] using h
  · cases hget : dictGet d.cache (dispatchCombination b st) with
    | some c =>
      left
      simp [proxyCall, resolveChain, hget]
    | none =>
      right
      simp [proxyCall, resolveChain, hget, cacheMethods,
        dictGet_none_dictSet hget]

/-- C10: a dispatch resolves its chain against the full combination (the
base-layers tuple concatenated with the execution context's active layers);
a record is collected exactly when its layer occurs in that combination and
its guard, evaluated on the full combination, accepts; and with the initial
`_baseLayers = (None,)` the combination starts with the sentinel `None`, so
a guard inspecting the combination observes `None` as an element. -/
theorem c10_guards_full_combination
    (fuel : Nat) (d : LayeredMethodDescriptor) (b : Combination)
    (inst cls : Val) (args : Args) (kwargs : Kwargs)
    (methods : List MethodRecord) (m : MethodRecord) (comb : Combination)
    (st : DState) (f : Body) (w : AdviceKind)
    (hm : m ∈ methods) (hl : m.layer_ ∈ comb)
    (hg : evalGuard m.guard comb = true)
    (hmem : (f, w) ∈ collectMethods methods comb) :
    (proxyCall fuel d b inst cls args kwargs st).2
      = (resolveChain d (dispatchCombination b st)).2 ∧
    (m.func, m.when) ∈ collectMethods methods comb ∧
    (∃ r, r ∈ methods ∧ (r.layer_ ∈ comb ∧ evalGuard r.guard comb = true) ∧
        r.func = f ∧ r.when = w) ∧
    (dispatchCombination baseLayersInit st).head? = some none ∧
    evalGuard .containsBase (dispatchCombination baseLayersInit st) = true := by
  refine ⟨rfl, collectLoop_mem_of hl hm hg, ?_, rfl, rfl⟩
  rcases collectLoop_mem_elim hmem with ⟨r, hr, hrl, hrf, hrw⟩
  exact ⟨r, hr, hrl, hrf, hrw⟩

/-- Witness for C10: a base-layer record with a guard that checks that the
sentinel `None` occurs in the combination it receives. -/
theorem c10_guards_full_combination_witness :
    (proxyCall 1 ⟨[], []⟩ [none] .none_ .none_ [] [] (⟨none, [], []⟩ : DState)).2
      = (resolveChain ⟨[], []⟩
          (dispatchCombination [none] (⟨none, [], []⟩ : DState))).2 ∧
    ((⟨none, Body.ret (.int 3), .around, .containsBase, "m"⟩ : MethodRecord).func,
        (⟨none, Body.ret (.int 3), .around, .containsBase, "m"⟩ : MethodRecord).when)
      ∈ collectMethods [⟨none, Body.ret (.int 3), .around, .containsBase, "m"⟩]
          [none] ∧
    (∃ r, r ∈ [(⟨none, Body.ret (.int 3), .around, .containsBase, "m"⟩ : MethodRecord)] ∧
        (r.layer_ ∈ ([none] : Combination) ∧ evalGuard r.guard [none] = true) ∧
        r.func = Body.ret (.int 3) ∧ r.when = .around) ∧
    (dispatchCombination baseLayersInit (⟨none, [], []⟩ : DState)).head?
      = some none ∧
    evalGuard .containsBase
        (dispatchCombination baseLayersInit (⟨none, [], []⟩ : DState)) = true :=
  c10_guards_full_combination 1 ⟨[], []⟩ [none] .none_ .none_ [] []
    [⟨none, Body.ret (.int 3), .around, .containsBase, "m"⟩]
    ⟨none, Body.ret (.int 3), .around, .containsBase, "m"⟩ [none]
    ⟨none, [], []⟩ (Body.ret (.int 3)) .around
    (List.mem_cons_self _ _) (by decide) rfl (by decide)

end ContextPy
